import Mathlib

/-!
Verification of the weather-app forecast pipeline and view-state controller.

The source is a single React component (`WeatherApp`).  Its one piece of real
logic is the body of `fetchWeatherData`: map the API response items to flat
records, sort them by timestamp, and (for granularity "day") group by the
date portion of the timestamp and average the four numeric fields.

Modelling choices:
* Numeric fields are modelled as `ℚ` (the JS numbers; the spec directs that no
  integer/float distinction needs preserving, and group means are exact here).
* Timestamps are `String`s of the shape "YYYY-MM-DD HH:MM:SS".  The source
  sorts with the comparator `new Date(a.dt_txt).getTime() - new Date(b.dt_txt).getTime()`;
  for timestamps in this fixed format, `Date`-parsing is strictly monotone in
  the lexicographic order on the string, so the comparator is modelled by
  lexicographic `≤` on `String` and the (stable, ES2019) `Array.prototype.sort`
  by `List.mergeSort`.
* The JS accumulator object `groupedData` relies on the insertion order of
  string keys in a JS object; it is modelled by an association list with
  insert-or-update-in-place, which has exactly that key order.
* The async control flow of `fetchWeatherData` (early return on missing key,
  try/catch/finally around two awaited requests) is modelled as a pure state
  transformer over the component state plus an environment describing the two
  endpoint responses; the returned trace lists which network requests were
  issued.
-/

/-- One element of the `weatherRes.data.list` response: the nested source
shape `{dt_txt, main: {temp, pressure, humidity}, wind: {speed}}`. -/
structure WeatherItem where
  dt_txt : String
  main_temp : ℚ
  main_pressure : ℚ
  main_humidity : ℚ
  wind_speed : ℚ
deriving DecidableEq, Repr

/-- The flat record produced by the `.map` step in `fetchWeatherData` (the
element type of `WeatherData['data']`): `{dt_txt, temp, pressure, humidity, wind}`. -/
structure DataPoint where
  dt_txt : String
  temp : ℚ
  pressure : ℚ
  humidity : ℚ
  wind : ℚ
deriving DecidableEq, Repr

/-- The field extraction performed by
`weatherRes.data.list.map(item => ({dt_txt, temp: item.main.temp, ...}))`. -/
def mapItem (it : WeatherItem) : DataPoint :=
  ⟨it.dt_txt, it.main_temp, it.main_pressure, it.main_humidity, it.wind_speed⟩

/-- The sort comparator: ascending by timestamp (see the modelling note on
`new Date(...).getTime()` vs lexicographic order; the comparison is made on
the underlying character list, which is the same order as `≤` on `String`). -/
def pointLe (a b : DataPoint) : Bool :=
  decide (a.dt_txt.data ≤ b.dt_txt.data)

/-- `data.sort((a, b) => new Date(a.dt_txt).getTime() - new Date(b.dt_txt).getTime())`. -/
def sortData (l : List DataPoint) : List DataPoint :=
  l.mergeSort pointLe

/-- The character test used to find the first space of a timestamp. -/
def notSpace (c : Char) : Bool :=
  decide (c ≠ ' ')

/-- `item.dt_txt.split(' ')[0]`: the part of the timestamp before the first
space (the whole string when it has no space). -/
def datePart (s : String) : String :=
  ⟨s.data.takeWhile notSpace⟩

/-- The running per-day accumulator kept in `groupedData[date]`: the four
numeric sums together with the `count` field. -/
structure GroupAcc where
  temp : ℚ
  pressure : ℚ
  humidity : ℚ
  wind : ℚ
  count : ℕ
deriving DecidableEq, Repr

/-- `groupedData[date] = { ...item, count: 1 }` (the spread copy of the first
item of the day; its `dt_txt` is never read afterwards, so it is dropped). -/
def initAcc (o : DataPoint) : GroupAcc :=
  ⟨o.temp, o.pressure, o.humidity, o.wind, 1⟩

/-- The `else` branch: add the item's fields into the day's sums and bump `count`. -/
def addAcc (a : GroupAcc) (o : DataPoint) : GroupAcc :=
  ⟨a.temp + o.temp, a.pressure + o.pressure, a.humidity + o.humidity,
    a.wind + o.wind, a.count + 1⟩

/-- Insert-or-update of the association list modelling the JS object
`groupedData`: an existing key is updated in place, a new key is appended
(JS string-keyed objects enumerate keys in insertion order). -/
def insertAcc : List (String × GroupAcc) → String → DataPoint → List (String × GroupAcc)
  | [], d, o => [(d, initAcc o)]
  | (d', a) :: rest, d, o =>
    if d' = d then (d', addAcc a o) :: rest
    else (d', a) :: insertAcc rest d o

/-- One iteration of `data.forEach(item => ...)` in the "day" branch. -/
def groupStep (g : List (String × GroupAcc)) (o : DataPoint) : List (String × GroupAcc) :=
  insertAcc g (datePart o.dt_txt) o

/-- The whole `forEach` loop: fold the grouping step over the sorted data,
starting from the empty object. -/
def groupData (l : List DataPoint) : List (String × GroupAcc) :=
  l.foldl groupStep []

/-- `Object.keys(groupedData).map(date => ({dt_txt: date, temp: sum/count, ...}))`. -/
def aggregateByDay (l : List DataPoint) : List DataPoint :=
  (groupData l).map fun p =>
    ⟨p.1, p.2.temp / p.2.count, p.2.pressure / p.2.count,
      p.2.humidity / p.2.count, p.2.wind / p.2.count⟩

/-- The normalization pipeline applied to the flat records: sort ascending by
timestamp, then aggregate by day exactly when `granularity = "day"` (any other
granularity value takes the implicit else-path and returns the sorted data). -/
def normalizeData (l : List DataPoint) (granularity : String) : List DataPoint :=
  let sorted := sortData l
  if granularity = "day" then aggregateByDay sorted else sorted

/-- `cityData` state value: `{ city: cityName, data }`. -/
structure WeatherData where
  city : String
  data : List DataPoint
deriving DecidableEq, Repr

/-- The component's `useState` fields. -/
structure ViewState where
  city : String
  cityData : Option WeatherData
  metric : String
  granularity : String
  isLoading : Bool
  error : Option String
deriving DecidableEq, Repr

/-- A network request issued by `fetchWeatherData` (one `axios.get` each). -/
inductive NetCall where
  | geocode
  | forecast
deriving DecidableEq, Repr

/-- One geocoding match (`geoRes.data[i]`); only `lat`/`lon` are read. -/
structure GeoEntry where
  lat : ℚ
  lon : ℚ
deriving DecidableEq, Repr

/-- The environment a fetch attempt runs against: the configured API key (or
its absence) and the responses the two endpoints would give, `Except.error`
standing for a transport failure or non-2xx response whose display message is
the carried string. -/
structure Env where
  apiKey : Option String
  geo : Except String (List GeoEntry)
  forecast : Except String (List WeatherItem)

/-- `fetchWeatherData(cityName, granularity)` as a state transformer: returns
the new component state and the list of network requests issued.  Mirrors the
source: early return on missing key; `setIsLoading(true); setError(null)`;
geocode, throwing "City not found" on an empty match list; forecast; map,
sort, optionally aggregate; `setCityData`; `catch` stores the error message;
`finally` clears the loading flag. -/
def fetchWeatherData (env : Env) (cityName granularity : String)
    (s : ViewState) : ViewState × List NetCall :=
  match env.apiKey with
  | none => ({ s with error := some "API key is not configured" }, [])
  | some _ =>
    let s1 : ViewState := { s with isLoading := true, error := none }
    match env.geo with
    | .error msg => ({ s1 with error := some msg, isLoading := false }, [.geocode])
    | .ok geoData =>
      if geoData.isEmpty then
        ({ s1 with error := some "City not found", isLoading := false }, [.geocode])
      else
        match env.forecast with
        | .error msg =>
          ({ s1 with error := some msg, isLoading := false }, [.geocode, .forecast])
        | .ok items =>
          ({ s1 with
              cityData := some ⟨cityName, normalizeData (items.map mapItem) granularity⟩,
              isLoading := false },
            [.geocode, .forecast])

/-- JS `String.prototype.trim`: remove whitespace from both ends of the
string (modelled on the underlying character list). -/
def trimJS (s : String) : String :=
  ⟨((s.data.dropWhile Char.isWhitespace).reverse.dropWhile Char.isWhitespace).reverse⟩

/-- `handleCitySubmit`: fetch with the trimmed city name and current
granularity when the trimmed name is non-empty (`if (city.trim())`),
otherwise do nothing. -/
def handleCitySubmit (env : Env) (s : ViewState) : ViewState × List NetCall :=
  if trimJS s.city = "" then (s, [])
  else fetchWeatherData env (trimJS s.city) s.granularity s

/-- `handleMetricChange`: `setMetric(e.target.value)` and nothing else. -/
def handleMetricChange (v : String) (s : ViewState) : ViewState × List NetCall :=
  ({ s with metric := v }, [])

/-- `handleGranularityChange`: `setGranularity` and, when the trimmed city
name is non-empty, a fetch with the new granularity. -/
def handleGranularityChange (env : Env) (v : String) (s : ViewState) :
    ViewState × List NetCall :=
  let s1 : ViewState := { s with granularity := v }
  if trimJS s.city = "" then (s1, [])
  else fetchWeatherData env (trimJS s.city) v s1

/-! ### Basic facts about the comparator -/

theorem pointLe_iff (a b : DataPoint) : pointLe a b = true ↔ a.dt_txt ≤ b.dt_txt := by
  simp only [pointLe, decide_eq_true_eq]
  exact (String.le_iff_toList_le).symm

theorem pointLe_trans (a b c : DataPoint) (h1 : pointLe a b) (h2 : pointLe b c) :
    pointLe a c := by
  rw [pointLe_iff] at *
  exact le_trans h1 h2

theorem pointLe_total (a b : DataPoint) : pointLe a b || pointLe b a := by
  simp only [Bool.or_eq_true, pointLe_iff]
  exact le_total a.dt_txt b.dt_txt

theorem sortData_perm (l : List DataPoint) : List.Perm (sortData l) l :=
  List.mergeSort_perm l pointLe

theorem sortData_sorted (l : List DataPoint) :
    (sortData l).Pairwise fun a b => a.dt_txt ≤ b.dt_txt := by
  have h := List.sorted_mergeSort pointLe_trans pointLe_total l
  exact h.imp fun hab => (pointLe_iff _ _).mp hab

/-! ### The grouping accumulator -/

/-- Association-list lookup in the model of `groupedData` (`groupedData[date]`). -/
def lookupAcc : List (String × GroupAcc) → String → Option GroupAcc
  | [], _ => none
  | (d', a) :: rest, d => if d' = d then some a else lookupAcc rest d

/-- What one `forEach` iteration does to the accumulator of a single key. -/
def stepAcc (a : Option GroupAcc) (o : DataPoint) : Option GroupAcc :=
  match a with
  | none => some (initAcc o)
  | some x => some (addAcc x o)

theorem lookupAcc_insertAcc_self (g : List (String × GroupAcc)) (d : String)
    (o : DataPoint) : lookupAcc (insertAcc g d o) d = stepAcc (lookupAcc g d) o := by
  induction g with
  | nil => simp [insertAcc, lookupAcc, stepAcc]
  | cons p rest ih =>
    obtain ⟨d', a⟩ := p
    by_cases h : d' = d
    · subst h
      simp [insertAcc, lookupAcc, stepAcc]
    · simp [insertAcc, lookupAcc, h, ih]

theorem lookupAcc_insertAcc_ne (g : List (String × GroupAcc)) (d d' : String)
    (o : DataPoint) (h : d' ≠ d) :
    lookupAcc (insertAcc g d o) d' = lookupAcc g d' := by
  induction g with
  | nil => simp [insertAcc, lookupAcc, Ne.symm h]
  | cons p rest ih =>
    obtain ⟨d'', a⟩ := p
    by_cases h2 : d'' = d
    · subst h2
      simp [insertAcc, lookupAcc, Ne.symm h]
    · simp only [insertAcc, if_neg h2, lookupAcc]
      by_cases h3 : d'' = d'
      · simp [h3]
      · simp [h3, ih]

theorem lookupAcc_foldl (l : List DataPoint) (g : List (String × GroupAcc))
    (d : String) :
    lookupAcc (l.foldl groupStep g) d =
      (l.filter fun o => decide (datePart o.dt_txt = d)).foldl stepAcc (lookupAcc g d) := by
  induction l generalizing g with
  | nil => rfl
  | cons o l ih =>
    rw [List.foldl_cons, ih, List.filter_cons]
    by_cases h : datePart o.dt_txt = d
    · rw [if_pos (by simp [h]), List.foldl_cons]
      congr 1
      rw [groupStep, ← h, lookupAcc_insertAcc_self]
    · rw [if_neg (by simp [h])]
      congr 1
      rw [groupStep, lookupAcc_insertAcc_ne _ _ _ _ fun h' => h h'.symm]

theorem foldl_stepAcc_some (m : List DataPoint) (a : GroupAcc) :
    m.foldl stepAcc (some a) =
      some ⟨a.temp + (m.map DataPoint.temp).sum, a.pressure + (m.map DataPoint.pressure).sum,
        a.humidity + (m.map DataPoint.humidity).sum, a.wind + (m.map DataPoint.wind).sum,
        a.count + m.length⟩ := by
  induction m generalizing a with
  | nil => simp
  | cons o m ih =>
    rw [List.foldl_cons]
    show m.foldl stepAcc (some (addAcc a o)) = _
    rw [ih]
    simp only [addAcc, List.map_cons, List.sum_cons, List.length_cons,
      Option.some.injEq, GroupAcc.mk.injEq]
    refine ⟨by ring, by ring, by ring, by ring, by omega⟩

theorem foldl_stepAcc_none (m : List DataPoint) (hm : m ≠ []) :
    m.foldl stepAcc none =
      some ⟨(m.map DataPoint.temp).sum, (m.map DataPoint.pressure).sum,
        (m.map DataPoint.humidity).sum, (m.map DataPoint.wind).sum, m.length⟩ := by
  match m with
  | [] => exact absurd rfl hm
  | o :: m =>
    rw [List.foldl_cons]
    show m.foldl stepAcc (some (initAcc o)) = _
    rw [foldl_stepAcc_some]
    simp only [initAcc, List.map_cons, List.sum_cons, List.length_cons,
      Option.some.injEq, GroupAcc.mk.injEq, true_and]
    omega

/-- The value recorded in `groupedData` for each date: the fieldwise sums and
the number of observations whose timestamp has that date part. -/
theorem lookupAcc_groupData (l : List DataPoint) (d : String) :
    lookupAcc (groupData l) d =
      if h : (l.filter fun o => decide (datePart o.dt_txt = d)) = [] then none
      else
        some ⟨((l.filter fun o => decide (datePart o.dt_txt = d)).map DataPoint.temp).sum,
          ((l.filter fun o => decide (datePart o.dt_txt = d)).map DataPoint.pressure).sum,
          ((l.filter fun o => decide (datePart o.dt_txt = d)).map DataPoint.humidity).sum,
          ((l.filter fun o => decide (datePart o.dt_txt = d)).map DataPoint.wind).sum,
          (l.filter fun o => decide (datePart o.dt_txt = d)).length⟩ := by
  rw [groupData, lookupAcc_foldl]
  by_cases h : (l.filter fun o => decide (datePart o.dt_txt = d)) = []
  · rw [dif_pos h, h]
    rfl
  · rw [dif_neg h]
    exact foldl_stepAcc_none _ h

/-! ### Keys of the grouping accumulator -/

/-- The key list of the accumulator after one insertion: unchanged for an
existing key, the new key appended otherwise. -/
theorem insertAcc_keys (g : List (String × GroupAcc)) (d : String) (o : DataPoint) :
    (insertAcc g d o).map Prod.fst =
      if d ∈ g.map Prod.fst then g.map Prod.fst else g.map Prod.fst ++ [d] := by
  induction g with
  | nil => simp [insertAcc, initAcc]
  | cons p rest ih =>
    obtain ⟨d', a⟩ := p
    by_cases h : d' = d
    · subst h
      simp [insertAcc]
    · simp only [insertAcc, if_neg h, List.map_cons, List.mem_cons]
      rw [ih]
      by_cases h2 : d ∈ rest.map Prod.fst
      · simp [h2]
      · simp [h2, Ne.symm h]

theorem groupData_keys_nodup_aux (l : List DataPoint) (g : List (String × GroupAcc))
    (hg : (g.map Prod.fst).Nodup) : ((l.foldl groupStep g).map Prod.fst).Nodup := by
  induction l generalizing g with
  | nil => exact hg
  | cons o l ih =>
    rw [List.foldl_cons]
    refine ih _ ?_
    rw [groupStep, insertAcc_keys]
    by_cases h : datePart o.dt_txt ∈ g.map Prod.fst
    · rw [if_pos h]
      exact hg
    · rw [if_neg h]
      simp only [List.nodup_append, List.nodup_cons, List.nodup_nil]
      exact ⟨hg, ⟨by simp, trivial⟩, by simpa using h⟩

/-- The dates recorded in `groupedData` have no duplicates. -/
theorem groupData_keys_nodup (l : List DataPoint) :
    ((groupData l).map Prod.fst).Nodup :=
  groupData_keys_nodup_aux l [] (by simp)

theorem mem_groupData_keys_aux (l : List DataPoint) (g : List (String × GroupAcc))
    (d : String) :
    (d ∈ (l.foldl groupStep g).map Prod.fst) ↔
      d ∈ g.map Prod.fst ∨ d ∈ l.map fun o => datePart o.dt_txt := by
  induction l generalizing g with
  | nil => simp
  | cons o l ih =>
    rw [List.foldl_cons, ih]
    rw [groupStep, insertAcc_keys]
    by_cases h : datePart o.dt_txt ∈ g.map Prod.fst
    · rw [if_pos h]
      simp only [List.map_cons, List.mem_cons]
      constructor
      · rintro (hd | hd)
        · exact Or.inl hd
        · exact Or.inr (Or.inr hd)
      · rintro (hd | hd | hd)
        · exact Or.inl hd
        · exact Or.inl (hd ▸ h)
        · exact Or.inr hd
    · rw [if_neg h]
      simp only [List.mem_append, List.mem_singleton, List.map_cons, List.mem_cons]
      tauto

/-- A date occurs as a key of `groupedData` exactly when some observation's
timestamp has that date part. -/
theorem mem_groupData_keys (l : List DataPoint) (d : String) :
    (d ∈ (groupData l).map Prod.fst) ↔ d ∈ l.map fun o => datePart o.dt_txt := by
  rw [groupData, mem_groupData_keys_aux]
  simp

theorem groupData_keys_sublist_aux (l : List DataPoint) (g : List (String × GroupAcc)) :
    List.Sublist ((l.foldl groupStep g).map Prod.fst)
      (g.map Prod.fst ++ l.map fun o => datePart o.dt_txt) := by
  induction l generalizing g with
  | nil => simp
  | cons o l ih =>
    rw [List.foldl_cons]
    have h1 := ih (groupStep g o)
    rw [groupStep, insertAcc_keys] at h1
    by_cases h : datePart o.dt_txt ∈ g.map Prod.fst
    · rw [if_pos h] at h1
      rw [List.map_cons]
      exact h1.trans (List.Sublist.append_left (List.sublist_cons_self _ _) _)
    · rw [if_neg h] at h1
      rw [List.map_cons]
      rw [List.append_assoc] at h1
      exact h1

/-- The key order of `groupedData` is a subsequence of the date parts of the
data in traversal order (each key sits at its first occurrence). -/
theorem groupData_keys_sublist (l : List DataPoint) :
    List.Sublist ((groupData l).map Prod.fst) (l.map fun o => datePart o.dt_txt) := by
  have h := groupData_keys_sublist_aux l []
  simpa using h

theorem mem_lookupAcc (g : List (String × GroupAcc)) (d : String) (a : GroupAcc)
    (hg : (g.map Prod.fst).Nodup) (hmem : (d, a) ∈ g) : lookupAcc g d = some a := by
  induction g with
  | nil => cases hmem
  | cons p rest ih =>
    obtain ⟨d', a'⟩ := p
    simp only [List.map_cons, List.nodup_cons] at hg
    rcases List.mem_cons.mp hmem with h | h
    · injection h with h1 h2
      subst h1
      subst h2
      simp [lookupAcc]
    · have hne : d' ≠ d := by
        intro he
        exact hg.1 (he ▸ List.mem_map_of_mem Prod.fst h)
      simp only [lookupAcc, if_neg hne]
      exact ih hg.2 h

/-! ### Well-formed timestamps and the date part -/

/-- A well-formed timestamp "YYYY-MM-DD HH:MM:SS": the characters before the
first space number exactly 10, and a space does occur.  (This is the shape the
forecast endpoint produces; it is what makes `Date`-parsing order, full-string
lexicographic order and date-part lexicographic order agree.) -/
def WFts (s : String) : Prop :=
  (s.data.takeWhile notSpace).length = 10 ∧ s.data.dropWhile notSpace ≠ []

instance : DecidablePred WFts := fun s => by
  unfold WFts
  infer_instance

theorem WFts_decomp {s : String} (h : WFts s) :
    ∃ dl tl, s.data = dl ++ ' ' :: tl ∧ (datePart s).data = dl ∧
      dl.length = 10 ∧ ' ' ∉ dl := by
  obtain ⟨h1, h2⟩ := h
  refine ⟨s.data.takeWhile notSpace, (s.data.dropWhile notSpace).tail, ?_, rfl, h1, ?_⟩
  · have hd := List.head_dropWhile_not notSpace s.data h2
    have hd' : (s.data.dropWhile notSpace).head h2 = ' ' := by
      simpa [notSpace] using hd
    conv_lhs => rw [← List.takeWhile_append_dropWhile notSpace s.data]
    rw [← List.head_cons_tail _ h2, hd']
    simp
  · intro hsp
    have := List.mem_takeWhile_imp hsp
    simp [notSpace] at this

/-- Computation rule for the date part of a decomposed timestamp. -/
theorem datePart_eq_of_decomp {s : String} {dl tl : List Char}
    (hdata : s.data = dl ++ ' ' :: tl) (hsp : ' ' ∉ dl) : (datePart s).data = dl := by
  show s.data.takeWhile notSpace = dl
  rw [hdata, List.takeWhile_append_of_pos (by
    intro a ha
    simp only [notSpace, ne_eq, decide_not, Bool.not_eq_true', decide_eq_false_iff_not,
      Decidable.not_not]
    exact fun he => hsp (he ▸ ha))]
  simp [List.takeWhile_cons, notSpace]

/-- Lexicographic comparison of two character lists of the shape
"block, space, rest" with equal block lengths: the blocks compare the same way. -/
theorem lex_of_append_space : ∀ (d1 : List Char) (t1 : List Char) (d2 : List Char)
    (t2 : List Char), d1.length = d2.length →
    List.Lex (· < ·) (d1 ++ ' ' :: t1) (d2 ++ ' ' :: t2) →
    d1 = d2 ∨ List.Lex (· < ·) d1 d2
  | [], _, [], _, _, _ => Or.inl rfl
  | [], _, b :: d2, _, hlen, _ => by simp at hlen
  | a :: d1, _, [], _, hlen, _ => by simp at hlen
  | a :: d1, t1, b :: d2, t2, hlen, h => by
    rw [List.cons_append, List.cons_append] at h
    cases h with
    | cons h' =>
      rcases lex_of_append_space d1 t1 d2 t2 (by simpa using hlen) h' with he | hl
      · exact Or.inl (he ▸ rfl)
      · exact Or.inr (List.Lex.cons hl)
    | rel hab => exact Or.inr (List.Lex.rel hab)

/-- Monotonicity of the date part over well-formed timestamps. -/
theorem datePart_mono {a b : String} (ha : WFts a) (hb : WFts b) (hab : a ≤ b) :
    datePart a ≤ datePart b := by
  obtain ⟨d1, t1, hdata1, hdp1, hlen1, hsp1⟩ := WFts_decomp ha
  obtain ⟨d2, t2, hdata2, hdp2, hlen2, hsp2⟩ := WFts_decomp hb
  rw [String.le_iff_toList_le] at hab ⊢
  show (datePart a).data ≤ (datePart b).data
  rw [hdp1, hdp2]
  have hab' : a.data ≤ b.data := hab
  rcases lt_or_eq_of_le hab' with hlt | he
  · have hlex : List.Lex (· < ·) (d1 ++ ' ' :: t1) (d2 ++ ' ' :: t2) := by
      rw [← hdata1, ← hdata2]
      exact hlt
    rcases lex_of_append_space d1 t1 d2 t2 (hlen1.trans hlen2.symm) hlex with h | h
    · exact le_of_eq h
    · exact le_of_lt h
  · have heq : d1 ++ ' ' :: t1 = d2 ++ ' ' :: t2 := by rw [← hdata1, ← hdata2, he]
    have := List.append_inj heq (hlen1.trans hlen2.symm)
    exact le_of_eq this.1

/-! ### Characterisation of the "day" output -/

theorem mem_aggregateByDay (x : List DataPoint) (pt : DataPoint)
    (h : pt ∈ aggregateByDay x) :
    ∃ a : GroupAcc, lookupAcc (groupData x) pt.dt_txt = some a ∧
      pt.temp = a.temp / a.count ∧ pt.pressure = a.pressure / a.count ∧
      pt.humidity = a.humidity / a.count ∧ pt.wind = a.wind / a.count := by
  rw [aggregateByDay] at h
  obtain ⟨⟨d, a⟩, hmem, heq⟩ := List.mem_map.mp h
  have hdt : pt.dt_txt = d := by rw [← heq]
  refine ⟨a, ?_, ?_, ?_, ?_, ?_⟩
  · rw [hdt]
    exact mem_lookupAcc _ d a (groupData_keys_nodup x) hmem
  all_goals rw [← heq]

/-- Every point of the "day" aggregation of `x` carries the fieldwise means of
the observations of `x` sharing its date part, and that group is non-empty. -/
theorem aggregateByDay_mean (x : List DataPoint) (pt : DataPoint)
    (h : pt ∈ aggregateByDay x) :
    (x.filter fun o => decide (datePart o.dt_txt = pt.dt_txt)) ≠ [] ∧
    pt.temp = ((x.filter fun o => decide (datePart o.dt_txt = pt.dt_txt)).map
        DataPoint.temp).sum /
      (x.filter fun o => decide (datePart o.dt_txt = pt.dt_txt)).length ∧
    pt.pressure = ((x.filter fun o => decide (datePart o.dt_txt = pt.dt_txt)).map
        DataPoint.pressure).sum /
      (x.filter fun o => decide (datePart o.dt_txt = pt.dt_txt)).length ∧
    pt.humidity = ((x.filter fun o => decide (datePart o.dt_txt = pt.dt_txt)).map
        DataPoint.humidity).sum /
      (x.filter fun o => decide (datePart o.dt_txt = pt.dt_txt)).length ∧
    pt.wind = ((x.filter fun o => decide (datePart o.dt_txt = pt.dt_txt)).map
        DataPoint.wind).sum /
      (x.filter fun o => decide (datePart o.dt_txt = pt.dt_txt)).length := by
  obtain ⟨a, hl, ht, hp, hh, hw⟩ := mem_aggregateByDay x pt h
  rw [lookupAcc_groupData] at hl
  by_cases hne : (x.filter fun o => decide (datePart o.dt_txt = pt.dt_txt)) = []
  · rw [dif_pos hne] at hl
    cases hl
  · rw [dif_neg hne] at hl
    injection hl with hl
    refine ⟨hne, ?_, ?_, ?_, ?_⟩
    · rw [ht, ← hl]
    · rw [hp, ← hl]
    · rw [hh, ← hl]
    · rw [hw, ← hl]

/-- Transfer of the mean property from the sorted list back to the input list:
filtering commutes with the sorting permutation, so group sums, lengths and
non-emptiness agree. -/
theorem normalizeData_day_mean (l : List DataPoint) (pt : DataPoint)
    (h : pt ∈ normalizeData l "day") :
    (l.filter fun o => decide (datePart o.dt_txt = pt.dt_txt)) ≠ [] ∧
    pt.temp = ((l.filter fun o => decide (datePart o.dt_txt = pt.dt_txt)).map
        DataPoint.temp).sum /
      (l.filter fun o => decide (datePart o.dt_txt = pt.dt_txt)).length ∧
    pt.pressure = ((l.filter fun o => decide (datePart o.dt_txt = pt.dt_txt)).map
        DataPoint.pressure).sum /
      (l.filter fun o => decide (datePart o.dt_txt = pt.dt_txt)).length ∧
    pt.humidity = ((l.filter fun o => decide (datePart o.dt_txt = pt.dt_txt)).map
        DataPoint.humidity).sum /
      (l.filter fun o => decide (datePart o.dt_txt = pt.dt_txt)).length ∧
    pt.wind = ((l.filter fun o => decide (datePart o.dt_txt = pt.dt_txt)).map
        DataPoint.wind).sum /
      (l.filter fun o => decide (datePart o.dt_txt = pt.dt_txt)).length := by
  have h' : pt ∈ aggregateByDay (sortData l) := by
    simpa [normalizeData] using h
  have hperm : List.Perm ((sortData l).filter fun o => decide (datePart o.dt_txt = pt.dt_txt))
      (l.filter fun o => decide (datePart o.dt_txt = pt.dt_txt)) :=
    (sortData_perm l).filter _
  obtain ⟨hne, ht, hp, hh, hw⟩ := aggregateByDay_mean (sortData l) pt h'
  have hlen := hperm.length_eq
  have hsum : ∀ f : DataPoint → ℚ,
      (((sortData l).filter fun o => decide (datePart o.dt_txt = pt.dt_txt)).map f).sum =
        ((l.filter fun o => decide (datePart o.dt_txt = pt.dt_txt)).map f).sum :=
    fun f => (hperm.map f).sum_eq
  refine ⟨?_, ?_, ?_, ?_, ?_⟩
  · intro he
    exact hne (List.eq_nil_of_length_eq_zero (by rw [hlen, he, List.length_nil]))
  · rw [ht, hsum, hlen]
  · rw [hp, hsum, hlen]
  · rw [hh, hsum, hlen]
  · rw [hw, hsum, hlen]

theorem aggregate_dates_eq (x : List DataPoint) :
    (aggregateByDay x).map DataPoint.dt_txt = (groupData x).map Prod.fst := by
  rw [aggregateByDay, List.map_map]
  rfl

/-- The timestamps of the "day" output: no duplicates, exactly the date parts
occurring in the input, in strictly ascending order (for well-formed input
timestamps). -/
theorem normalizeData_day_dates (l : List DataPoint) (hwf : ∀ o ∈ l, WFts o.dt_txt) :
    ((normalizeData l "day").map DataPoint.dt_txt).Nodup ∧
    (∀ d, d ∈ (normalizeData l "day").map DataPoint.dt_txt ↔
      d ∈ l.map fun o => datePart o.dt_txt) ∧
    ((normalizeData l "day").map DataPoint.dt_txt).Pairwise (· < ·) := by
  have hnd : normalizeData l "day" = aggregateByDay (sortData l) := by
    simp [normalizeData]
  rw [hnd, aggregate_dates_eq]
  refine ⟨groupData_keys_nodup _, ?_, ?_⟩
  · intro d
    rw [mem_groupData_keys]
    exact ((sortData_perm l).map _).mem_iff
  · have hsorted := sortData_sorted l
    have hwf' : ∀ o ∈ sortData l, WFts o.dt_txt :=
      fun o ho => hwf o ((sortData_perm l).mem_iff.mp ho)
    have hmap : ((sortData l).map fun o => datePart o.dt_txt).Pairwise (· ≤ ·) := by
      rw [List.pairwise_map]
      exact hsorted.imp_of_mem fun ha hb hab =>
        datePart_mono (hwf' _ ha) (hwf' _ hb) hab
    have hle : ((groupData (sortData l)).map Prod.fst).Pairwise (· ≤ ·) :=
      List.Pairwise.sublist (groupData_keys_sublist (sortData l)) hmap
    have hne : ((groupData (sortData l)).map Prod.fst).Pairwise (· ≠ ·) :=
      groupData_keys_nodup _
    exact (hle.and hne).imp fun hab => lt_of_le_of_ne hab.1 hab.2

theorem normalizeData_3h (l : List DataPoint) : normalizeData l "3h" = sortData l := by
  simp [normalizeData]

/-! ### Concrete data used by the scenario claims and witnesses -/

/-- The spec's worked example: two observations on 2024-01-01. -/
def exampleRaw : List DataPoint :=
  [⟨"2024-01-01 00:00:00", 10, 1000, 50, 2⟩, ⟨"2024-01-01 03:00:00", 20, 1010, 60, 4⟩]

/-- A two-day, unsorted input used to exercise the date ordering. -/
def exampleRaw2 : List DataPoint :=
  [⟨"2024-01-02 00:00:00", 1, 2, 3, 4⟩, ⟨"2024-01-01 21:00:00", 5, 6, 7, 8⟩]

/-- An environment whose geocode lookup succeeds with an empty match list. -/
def envGeoEmpty : Env :=
  ⟨some "key", .ok [], .ok []⟩

/-- An environment with no API credential configured. -/
def envNoKey : Env :=
  ⟨none, .ok [⟨1, 2⟩], .ok []⟩

/-- A plain resting state: a city entered, no data yet, defaults selected. -/
def restState : ViewState :=
  ⟨"Paris", none, "temp", "3h", false, none⟩

/-- A state whose city input is whitespace only, holding some previous data. -/
def blankCityState : ViewState :=
  ⟨" ", some ⟨"Paris", exampleRaw⟩, "temp", "3h", false, some "old error"⟩

/-- A state holding a series, used for the metric-change frame claim. -/
def heldState : ViewState :=
  ⟨"Paris", some ⟨"Paris", exampleRaw⟩, "temp", "3h", false, none⟩

/-! ### The claims -/

/-- C1: for granularity "day", every output point's numeric fields are the
arithmetic means of those fields over the input observations whose
timestamp's date part matches the point's date (so a single-observation day
reproduces that observation's values), and on the spec's worked example the
output is exactly `[{"2024-01-01", 15, 1005, 55, 3}]`. -/
theorem day_output_is_group_mean :
    (∀ (l : List DataPoint) (pt : DataPoint), pt ∈ normalizeData l "day" →
      (l.filter fun o => decide (datePart o.dt_txt = pt.dt_txt)) ≠ [] ∧
      pt.temp = ((l.filter fun o => decide (datePart o.dt_txt = pt.dt_txt)).map
          DataPoint.temp).sum /
        (l.filter fun o => decide (datePart o.dt_txt = pt.dt_txt)).length ∧
      pt.pressure = ((l.filter fun o => decide (datePart o.dt_txt = pt.dt_txt)).map
          DataPoint.pressure).sum /
        (l.filter fun o => decide (datePart o.dt_txt = pt.dt_txt)).length ∧
      pt.humidity = ((l.filter fun o => decide (datePart o.dt_txt = pt.dt_txt)).map
          DataPoint.humidity).sum /
        (l.filter fun o => decide (datePart o.dt_txt = pt.dt_txt)).length ∧
      pt.wind = ((l.filter fun o => decide (datePart o.dt_txt = pt.dt_txt)).map
          DataPoint.wind).sum /
        (l.filter fun o => decide (datePart o.dt_txt = pt.dt_txt)).length) ∧
    normalizeData exampleRaw "day" = [⟨"2024-01-01", 15, 1005, 55, 3⟩] ∧
    (∀ (l : List DataPoint) (o pt : DataPoint), pt ∈ normalizeData l "day" →
      (l.filter fun o2 => decide (datePart o2.dt_txt = pt.dt_txt)) = [o] →
      pt.temp = o.temp ∧ pt.pressure = o.pressure ∧ pt.humidity = o.humidity ∧
        pt.wind = o.wind) := by
  refine ⟨fun l pt h => normalizeData_day_mean l pt h, ?_, ?_⟩
  · have hs : sortData exampleRaw = exampleRaw := List.mergeSort_of_sorted (by decide)
    rw [normalizeData]
    simp only [hs, if_pos rfl]
    norm_num [aggregateByDay, groupData, groupStep, insertAcc, datePart, initAcc, addAcc,
      List.foldl, List.takeWhile_cons, List.takeWhile_nil, String.ext_iff, notSpace]
    decide
  · intro l o pt h hf
    obtain ⟨hne, ht, hp, hh, hw⟩ := normalizeData_day_mean l pt h
    rw [hf] at ht hp hh hw
    simp at ht hp hh hw
    exact ⟨ht, hp, hh, hw⟩

theorem day_output_is_group_mean_witness :
    (⟨"2024-01-01", 15, 1005, 55, 3⟩ : DataPoint) ∈ normalizeData exampleRaw "day" ∧
    (exampleRaw.filter fun o =>
      decide (datePart o.dt_txt = (⟨"2024-01-01", 15, 1005, 55, 3⟩ : DataPoint).dt_txt)) ≠ [] := by
  have h := day_output_is_group_mean
  have hmem : (⟨"2024-01-01", 15, 1005, 55, 3⟩ : DataPoint) ∈ normalizeData exampleRaw "day" := by
    rw [h.2.1]
    exact List.mem_singleton.mpr rfl
  exact ⟨hmem, (h.1 exampleRaw _ hmem).1⟩

/-- C2: for every non-empty input, the "3h" output is sorted ascending by
timestamp and has the same length as the input. -/
theorem normalize_3h_sorted_same_length (l : List DataPoint) (hl : l ≠ []) :
    ((normalizeData l "3h").Pairwise fun a b => a.dt_txt ≤ b.dt_txt) ∧
    (normalizeData l "3h").length = l.length := by
  rw [normalizeData_3h]
  exact ⟨sortData_sorted l, (sortData_perm l).length_eq⟩

theorem normalize_3h_sorted_same_length_witness :
    exampleRaw ≠ [] ∧
    (((normalizeData exampleRaw "3h").Pairwise fun a b => a.dt_txt ≤ b.dt_txt) ∧
      (normalizeData exampleRaw "3h").length = exampleRaw.length) :=
  ⟨by decide, normalize_3h_sorted_same_length exampleRaw (by decide)⟩

/-- C3: when the credential is configured and the attempt fails (geocode
transport error, empty geocode result, or forecast transport error), the held
series is unchanged, an error message is set (specifically "City not found"
for the empty-geocode case), and the loading flag ends false. -/
theorem fetch_failure_keeps_series (env : Env) (cityName g : String) (s : ViewState)
    (k : String) (hk : env.apiKey = some k)
    (hfail : (∃ e, env.geo = .error e) ∨ env.geo = .ok [] ∨
      ((∃ ge, env.geo = .ok ge ∧ ge ≠ []) ∧ ∃ e, env.forecast = .error e)) :
    (fetchWeatherData env cityName g s).1.cityData = s.cityData ∧
    (∃ m, (fetchWeatherData env cityName g s).1.error = some m) ∧
    (fetchWeatherData env cityName g s).1.isLoading = false ∧
    (env.geo = .ok [] →
      (fetchWeatherData env cityName g s).1.error = some "City not found") := by
  obtain ⟨ak, geo, fc⟩ := env
  simp only at hk
  subst hk
  rcases hfail with ⟨e, he⟩ | he | ⟨⟨ge, hge, hne⟩, e, he⟩
  · simp only at he
    subst he
    simp [fetchWeatherData]
  · simp only at he
    subst he
    simp [fetchWeatherData]
  · simp only at hge he
    subst hge
    subst he
    simp [fetchWeatherData, List.isEmpty_iff, hne]

theorem fetch_failure_keeps_series_witness :
    envGeoEmpty.apiKey = some "key" ∧ envGeoEmpty.geo = .ok [] ∧
    ((fetchWeatherData envGeoEmpty "Paris" "3h" restState).1.cityData = restState.cityData ∧
      (∃ m, (fetchWeatherData envGeoEmpty "Paris" "3h" restState).1.error = some m) ∧
      (fetchWeatherData envGeoEmpty "Paris" "3h" restState).1.isLoading = false ∧
      (envGeoEmpty.geo = .ok [] →
        (fetchWeatherData envGeoEmpty "Paris" "3h" restState).1.error =
          some "City not found")) :=
  ⟨rfl, rfl, fetch_failure_keeps_series envGeoEmpty "Paris" "3h" restState "key" rfl
    (Or.inr (Or.inl rfl))⟩

/-- C4: with no API credential configured, the fetch issues no network request
and immediately sets the error message "API key is not configured". -/
theorem missing_key_no_network (env : Env) (cityName g : String) (s : ViewState)
    (hk : env.apiKey = none) :
    (fetchWeatherData env cityName g s).2 = [] ∧
    (fetchWeatherData env cityName g s).1.error = some "API key is not configured" := by
  obtain ⟨ak, geo, fc⟩ := env
  simp only at hk
  subst hk
  simp [fetchWeatherData]

theorem missing_key_no_network_witness :
    envNoKey.apiKey = none ∧
    ((fetchWeatherData envNoKey "Paris" "3h" restState).2 = [] ∧
      (fetchWeatherData envNoKey "Paris" "3h" restState).1.error =
        some "API key is not configured") :=
  ⟨rfl, missing_key_no_network envNoKey "Paris" "3h" restState rfl⟩

/-- C5: every granularity other than "day" takes the implicit else-path, so
its output coincides with the "3h" output. -/
theorem other_granularity_eq_3h (l : List DataPoint) (g : String) (hg : g ≠ "day") :
    normalizeData l g = normalizeData l "3h" := by
  rw [normalizeData_3h]
  simp [normalizeData, hg]

theorem other_granularity_eq_3h_witness :
    "hourly" ≠ "day" ∧ normalizeData exampleRaw "hourly" = normalizeData exampleRaw "3h" :=
  ⟨by decide, other_granularity_eq_3h exampleRaw "hourly" (by decide)⟩

/-- C6: a city input that trims to the empty string makes submission a no-op:
the state (in particular `isLoading` and the error message) is unchanged and
no fetch happens. -/
theorem blank_submit_noop (env : Env) (s : ViewState) (h : trimJS s.city = "") :
    handleCitySubmit env s = (s, []) ∧
    (handleCitySubmit env s).1.isLoading = s.isLoading ∧
    (handleCitySubmit env s).1.error = s.error := by
  simp [handleCitySubmit, h]

theorem blank_submit_noop_witness :
    trimJS blankCityState.city = "" ∧
    (handleCitySubmit envGeoEmpty blankCityState = (blankCityState, []) ∧
      (handleCitySubmit envGeoEmpty blankCityState).1.isLoading = blankCityState.isLoading ∧
      (handleCitySubmit envGeoEmpty blankCityState).1.error = blankCityState.error) :=
  ⟨by decide, blank_submit_noop envGeoEmpty blankCityState (by decide)⟩

/-- C7: the "3h" pipeline is idempotent: running it on its own output returns
that output unchanged. -/
theorem normalize_3h_idempotent (l : List DataPoint) :
    normalizeData (normalizeData l "3h") "3h" = normalizeData l "3h" := by
  rw [normalizeData_3h, normalizeData_3h, sortData, sortData]
  exact List.mergeSort_of_sorted (List.sorted_mergeSort pointLe_trans pointLe_total l)

/-- C8: changing the metric only sets `metric`: every other state field,
including the held series, is untouched, and no network request is issued. -/
theorem metric_change_frame (v : String) (s : ViewState) (wd : WeatherData)
    (h : s.cityData = some wd) :
    (handleMetricChange v s).1.metric = v ∧
    (handleMetricChange v s).1.cityData = some wd ∧
    (handleMetricChange v s).1.city = s.city ∧
    (handleMetricChange v s).1.granularity = s.granularity ∧
    (handleMetricChange v s).1.isLoading = s.isLoading ∧
    (handleMetricChange v s).1.error = s.error ∧
    (handleMetricChange v s).2 = [] := by
  simp [handleMetricChange, h]

theorem metric_change_frame_witness :
    heldState.cityData = some ⟨"Paris", exampleRaw⟩ ∧
    ((handleMetricChange "wind" heldState).1.metric = "wind" ∧
      (handleMetricChange "wind" heldState).1.cityData = some ⟨"Paris", exampleRaw⟩ ∧
      (handleMetricChange "wind" heldState).1.city = heldState.city ∧
      (handleMetricChange "wind" heldState).1.granularity = heldState.granularity ∧
      (handleMetricChange "wind" heldState).1.isLoading = heldState.isLoading ∧
      (handleMetricChange "wind" heldState).1.error = heldState.error ∧
      (handleMetricChange "wind" heldState).2 = []) :=
  ⟨rfl, metric_change_frame "wind" heldState ⟨"Paris", exampleRaw⟩ rfl⟩

/-- C9: for well-formed timestamps, the "day" output has exactly one point per
distinct date part occurring in the input — its timestamps are pairwise
distinct, they are exactly the date parts present, and they appear in strictly
ascending order. -/
theorem day_dates_distinct_ascending (l : List DataPoint)
    (hwf : ∀ o ∈ l, WFts o.dt_txt) :
    ((normalizeData l "day").map DataPoint.dt_txt).Nodup ∧
    (∀ d, d ∈ (normalizeData l "day").map DataPoint.dt_txt ↔
      d ∈ l.map fun o => datePart o.dt_txt) ∧
    ((normalizeData l "day").map DataPoint.dt_txt).Pairwise (· < ·) :=
  normalizeData_day_dates l hwf

theorem day_dates_distinct_ascending_witness :
    (∀ o ∈ exampleRaw2, WFts o.dt_txt) ∧
    (((normalizeData exampleRaw2 "day").map DataPoint.dt_txt).Nodup ∧
      (∀ d, d ∈ (normalizeData exampleRaw2 "day").map DataPoint.dt_txt ↔
        d ∈ exampleRaw2.map fun o => datePart o.dt_txt) ∧
      ((normalizeData exampleRaw2 "day").map DataPoint.dt_txt).Pairwise (· < ·)) :=
  ⟨by decide, day_dates_distinct_ascending exampleRaw2 (by decide)⟩

/-- C10: the pipeline maps the empty input to the empty output for both
granularities (no error branch on empty input). -/
theorem empty_input_empty_output :
    normalizeData [] "3h" = [] ∧ normalizeData [] "day" = [] := by
  constructor <;> simp [normalizeData, sortData, aggregateByDay, groupData]
